import Mathlib

/-!
# Verification of the oafeat-use-case hydrometric pipeline

A shallow embedding of the two core components of the notebook
`use-case_oafeat-interactive` (English and French versions are identical in
logic): the station proximity selector (cells "Retrieval of hydrometric
stations data" and "List of stations located inside the buffer zone") and the
per-station time-series assembler (cell "Retrieval of hydrometric data for
each station").

Conventions of the embedding:
* pandas NaN / missing water-level values are `Option ℚ` with `none` for NaN;
* projected coordinates (metres in EPSG:3347) are pairs of rationals;
* the OGR `Buffer`/`Intersects` test is idealised as boundary-inclusive
  membership in the Euclidean disc of the buffer radius around the projected
  centre (OGR's buffer is a fine polygonal approximation of that disc);
* Python exceptions are an explicit `PyError` sum, and fallible code returns
  `Except PyError`.
-/

namespace Oafeat

/-- Python exceptions that the notebook's core can raise: `ValueError` with a
message (the notebook's own user-facing raises), `NameError` for a reference
to an undefined variable, `TypeError` for ill-typed builtin calls such as
`int(None)`. -/
inductive PyError where
  | valueError (msg : String)
  | nameError (name : String)
  | typeError (msg : String)
deriving DecidableEq, Repr

/-- A hydrometric-station Feature as consumed by the selection loop: its
`STATION_NUMBER` identifier and its point geometry in the input spatial
reference system. -/
structure Feature where
  stationNumber : String
  geom : ℚ × ℚ
deriving DecidableEq, Repr

/-- One row of a station's `hydrometric-daily-mean` data frame: the `DATE`
(day index) and the `LEVEL` column, `none` standing for pandas NaN. -/
structure ObservationRecord where
  date : Nat
  level : Option ℚ
deriving DecidableEq, Repr

/-- `np.isnan(row["LEVEL"])`: the record's value is missing. -/
def isnanLevel (r : ObservationRecord) : Bool :=
  r.level.isNone

/-! ## Trailing trim

The notebook's loop

```
while np.isnan(historical_data_df["LEVEL"].iloc[-1]):
    historical_data_df = historical_data_df.drop(historical_data_df.tail(1).index)
```

repeatedly drops the last row while its `LEVEL` is NaN.  `dropWhileNaNRev`
performs the same removal on the reversed row list; `trimTrailing` is the
loop's net effect on the row list.  `trimLoop` is the direct, step-by-step
model of the loop with explicit fuel and explicit failure on a last-element
access to an empty frame (`iloc[-1]` on an empty frame raises). -/

/-- Drop the leading run of missing-value records (used on the reversed
record list to drop the trailing run of the original list). -/
def dropWhileNaNRev : List ObservationRecord → List ObservationRecord
  | [] => []
  | r :: rs => if isnanLevel r then dropWhileNaNRev rs else r :: rs

/-- Net effect of the notebook's trailing-NaN `while` loop: repeatedly drop
the last record while its value is missing. -/
def trimTrailing (l : List ObservationRecord) : List ObservationRecord :=
  (dropWhileNaNRev l.reverse).reverse

/-- Step-by-step model of the `while np.isnan(...iloc[-1])` loop.  Each
iteration reads the last row (`none` result models the `IndexError` of
`iloc[-1]` on an empty frame) and either stops or drops it; `fuel` bounds the
number of iterations, with `none` on exhaustion. -/
def trimLoop : Nat → List ObservationRecord → Option (List ObservationRecord)
  | 0, _ => none
  | fuel + 1, l =>
    match l.getLast? with
    | none => none
    | some r =>
      if isnanLevel r then trimLoop fuel l.dropLast else some l

/-! ### Lemmas about the trim -/

theorem dropWhileNaNRev_sublist (l : List ObservationRecord) :
    ∃ pre, l = pre ++ dropWhileNaNRev l ∧ ∀ r ∈ pre, isnanLevel r := by
  induction l with
  | nil => exact ⟨[], rfl, by simp⟩
  | cons r rs ih =>
    by_cases h : isnanLevel r
    · obtain ⟨pre, hpre, hall⟩ := ih
      refine ⟨r :: pre, ?_, ?_⟩
      · simp [dropWhileNaNRev, h, ← hpre]
      · intro x hx
        rcases List.mem_cons.mp hx with hx | hx
        · exact hx ▸ h
        · exact hall x hx
    · exact ⟨[], by simp [dropWhileNaNRev, h], by simp⟩

theorem dropWhileNaNRev_head (l : List ObservationRecord) :
    dropWhileNaNRev l = [] ∨
      ∃ r rs, dropWhileNaNRev l = r :: rs ∧ isnanLevel r = false := by
  induction l with
  | nil => exact Or.inl rfl
  | cons r rs ih =>
    by_cases h : isnanLevel r
    · simpa [dropWhileNaNRev, h] using ih
    · exact Or.inr ⟨r, rs, by simp [dropWhileNaNRev, h], by simp_all⟩

theorem dropWhileNaNRev_idem (l : List ObservationRecord) :
    dropWhileNaNRev (dropWhileNaNRev l) = dropWhileNaNRev l := by
  rcases dropWhileNaNRev_head l with h | ⟨r, rs, h, hr⟩
  · simp [h, dropWhileNaNRev]
  · simp [h, dropWhileNaNRev, hr]

theorem dropWhileNaNRev_ne_nil (l : List ObservationRecord)
    (h : ∃ r ∈ l, isnanLevel r = false) : dropWhileNaNRev l ≠ [] := by
  induction l with
  | nil => simp at h
  | cons r rs ih =>
    obtain ⟨x, hx, hxv⟩ := h
    by_cases hr : isnanLevel r
    · rcases List.mem_cons.mp hx with hx | hx
      · subst hx; simp [hr] at hxv
      · simpa [dropWhileNaNRev, hr] using ih ⟨x, hx, hxv⟩
    · simp [dropWhileNaNRev, hr]

theorem trimTrailing_append (l : List ObservationRecord) :
    ∃ suf, l = trimTrailing l ++ suf ∧ ∀ r ∈ suf, isnanLevel r := by
  obtain ⟨pre, hpre, hall⟩ := dropWhileNaNRev_sublist l.reverse
  refine ⟨pre.reverse, ?_, fun r hr => hall r (List.mem_reverse.mp hr)⟩
  have := congrArg List.reverse hpre
  simpa [trimTrailing, List.reverse_append] using this

theorem trimTrailing_getLast (l : List ObservationRecord) :
    trimTrailing l = [] ∨
      ∃ r, (trimTrailing l).getLast? = some r ∧ isnanLevel r = false := by
  rcases dropWhileNaNRev_head l.reverse with h | ⟨r, rs, h, hr⟩
  · exact Or.inl (by simp [trimTrailing, h])
  · refine Or.inr ⟨r, ?_, hr⟩
    simp [trimTrailing, h, List.getLast?_reverse]

theorem trimTrailing_idem (l : List ObservationRecord) :
    trimTrailing (trimTrailing l) = trimTrailing l := by
  simp [trimTrailing, dropWhileNaNRev_idem]

theorem trimTrailing_ne_nil (l : List ObservationRecord)
    (h : ∃ r ∈ l, isnanLevel r = false) : trimTrailing l ≠ [] := by
  have : dropWhileNaNRev l.reverse ≠ [] :=
    dropWhileNaNRev_ne_nil l.reverse
      (by obtain ⟨r, hr, hv⟩ := h; exact ⟨r, List.mem_reverse.mpr hr, hv⟩)
  simpa [trimTrailing] using this

theorem trimTrailing_subset {l : List ObservationRecord} {r : ObservationRecord}
    (h : r ∈ trimTrailing l) : r ∈ l := by
  obtain ⟨suf, hsuf, _⟩ := trimTrailing_append l
  rw [hsuf]
  exact List.mem_append_left _ h

theorem trimLoop_eq (n : Nat) :
    ∀ l : List ObservationRecord, l.length ≤ n →
      (∃ r ∈ l, isnanLevel r = false) →
        trimLoop (n + 1) l = some (trimTrailing l) := by
  induction n with
  | zero =>
    intro l hl hx
    rw [List.length_eq_zero.mp (Nat.le_zero.mp hl)] at hx
    simp at hx
  | succ n ih =>
    intro l hl hx
    induction l using List.reverseRecOn with
    | nil => simp at hx
    | append_singleton ys y _ =>
      by_cases hy : isnanLevel y
      · have hys : ∃ r ∈ ys, isnanLevel r = false := by
          obtain ⟨r, hr, hv⟩ := hx
          rcases List.mem_append.mp hr with hr | hr
          · exact ⟨r, hr, hv⟩
          · rw [List.mem_singleton.mp hr] at hv
            rw [hv] at hy
            exact absurd hy (by simp)
        have hlen : ys.length ≤ n := by
          have := hl
          simp only [List.length_append, List.length_singleton] at this
          omega
        have hstep : trimLoop (n + 1 + 1) (ys ++ [y]) = trimLoop (n + 1) ys := by
          simp [trimLoop, List.getLast?_concat, hy, List.dropLast_concat]
        have htrim : trimTrailing (ys ++ [y]) = trimTrailing ys := by
          simp [trimTrailing, List.reverse_append, dropWhileNaNRev, hy]
        rw [hstep, htrim]
        exact ih ys hlen hys
      · have hstep : trimLoop (n + 1 + 1) (ys ++ [y]) = some (ys ++ [y]) := by
          simp [trimLoop, List.getLast?_concat, hy]
        have htrim : trimTrailing (ys ++ [y]) = ys ++ [y] := by
          simp [trimTrailing, List.reverse_append, dropWhileNaNRev, hy]
        rw [hstep, htrim]

/-! ## Proximity selector

Embedding of the cells "Retrieval of hydrometric stations data" (empty
feature-collection check) and "List of stations located inside the buffer
zone" (SRS identification, reprojection, `Buffer`/`Intersects` selection
loop, empty-selection check). -/

/-- Squared Euclidean distance between two projected points (metres²). -/
def distSq (p q : ℚ × ℚ) : ℚ :=
  (p.1 - q.1) ^ 2 + (p.2 - q.2) ^ 2

/-- The `geom.Intersects(point_buffer)` test: the reprojected candidate point
meets the disc of radius `radiusM` metres around the reprojected centre
(boundary inclusive, as OGR point-buffer intersection is). -/
def intersectsBuffer (p c : ℚ × ℚ) (radiusM : ℚ) : Prop :=
  distSq p c ≤ radiusM ^ 2

instance (p c : ℚ × ℚ) (radiusM : ℚ) : Decidable (intersectsBuffer p c radiusM) :=
  inferInstanceAs (Decidable (distSq p c ≤ radiusM ^ 2))

/-- The selection loop of the notebook: walk the candidate features, reproject
each geometry with `transform`, and collect `STATION_NUMBER` of those whose
point intersects the buffer of `bufferKm * 1000` metres around the reprojected
centre. -/
def stationsWithin (transform : ℚ × ℚ → ℚ × ℚ) (center : ℚ × ℚ) (bufferKm : ℚ) :
    List Feature → List String
  | [] => []
  | f :: rest =>
    if intersectsBuffer (transform f.geom) (transform center) (bufferKm * 1000) then
      f.stationNumber :: stationsWithin transform center bufferKm rest
    else
      stationsWithin transform center bufferKm rest

/-- Python `int(...)` applied to the result of `GetAuthorityCode`, which is
`None` when the layer's spatial reference has no recognisable authority code
(the code, when present, is modelled as the already-numeric EPSG integer):
`int(None)` raises `TypeError`; otherwise the integer is returned. -/
def pyInt : Option Int → Except PyError Int
  | none =>
    .error (.typeError
      "int() argument must be a string, a bytes-like object or a number, not NoneType")
  | some n => .ok n

/-- Message of the cell-5 `raise ValueError` when the fetched feature
collection is empty. -/
def noStationsFoundMsg : String :=
  "No hydrometric stations were found. Please verify the coordinates."

/-- Message of the cell-6 `raise ValueError` when no station lies inside the
buffer. -/
def noneWithinMsg (bufferKm : ℚ) : String :=
  "There are no hydrometric stations within " ++ toString bufferKm ++
    " km of the chosen coordinates. Please verify the coordinates."

/-- The whole proximity-selection stage: the empty-collection check of cell 5,
then cell 6's SRS identification (`GetAuthorityCode` / `int` /
`ImportFromEPSG`, with `transformOf` giving the coordinate transformation for
the identified EPSG code), the buffer-selection loop, and the empty-selection
check. -/
def selector (authorityCode : Option Int) (transformOf : Int → ℚ × ℚ → ℚ × ℚ)
    (center : ℚ × ℚ) (bufferKm : ℚ) (candidates : List Feature) :
    Except PyError (List String) :=
  if candidates.isEmpty then
    .error (.valueError noStationsFoundMsg)
  else
    match pyInt authorityCode with
    | .error e => .error e
    | .ok epsg =>
      let stations := stationsWithin (transformOf epsg) center bufferKm candidates
      if stations.isEmpty then
        .error (.valueError (noneWithinMsg bufferKm))
      else
        .ok stations

/-- An error is user-facing in the notebook's sense when it is one of the
notebook's own `raise ValueError(...)` with a message. -/
def isUserFacingError {α : Type} : Except PyError α → Bool
  | .error (.valueError _) => true
  | _ => false

theorem stationsWithin_mem (transform : ℚ × ℚ → ℚ × ℚ) (center : ℚ × ℚ)
    (bufferKm : ℚ) (candidates : List Feature) (st : String) :
    st ∈ stationsWithin transform center bufferKm candidates ↔
      ∃ f ∈ candidates, f.stationNumber = st ∧
        intersectsBuffer (transform f.geom) (transform center) (bufferKm * 1000) := by
  induction candidates with
  | nil => simp [stationsWithin]
  | cons f rest ih =>
    by_cases h : intersectsBuffer (transform f.geom) (transform center) (bufferKm * 1000)
    · simp only [stationsWithin, if_pos h, List.mem_cons, ih]
      constructor
      · rintro (rfl | ⟨g, hg, hst, hd⟩)
        · exact ⟨f, Or.inl rfl, rfl, h⟩
        · exact ⟨g, Or.inr hg, hst, hd⟩
      · rintro ⟨g, (rfl | hg), hst, hd⟩
        · exact Or.inl hst.symm
        · exact Or.inr ⟨g, hg, hst, hd⟩
    · simp only [stationsWithin, if_neg h, List.mem_cons, ih]
      constructor
      · rintro ⟨g, hg, hst, hd⟩
        exact ⟨g, Or.inr hg, hst, hd⟩
      · rintro ⟨g, (rfl | hg), hst, hd⟩
        · exact absurd hd h
        · exact ⟨g, hg, hst, hd⟩

/-! ## Time-series assembler

Embedding of the cell "Retrieval of hydrometric data for each station".  The
input is the per-station fetch result: an association list from
`STATION_NUMBER` to that station's ordered `ObservationRecord` rows (an empty
row list models an empty `hydro_data["features"]`).  The per-station branch
structure of the loop is kept literally: nonempty features and not all-NaN
`LEVEL` → trim trailing NaN rows and store the frame in `hydrometric_data`;
otherwise the station goes to `stations_without_data`. -/

/-- A station's fetched records let it enter `hydrometric_data`: the feature
list is nonempty and not every `LEVEL` is NaN. -/
def usable (recs : List ObservationRecord) : Bool :=
  !recs.isEmpty && !recs.all isnanLevel

/-- The per-station assembly loop: returns the pair of the
`hydrometric_data` association list (station, cleaned rows) and the
`stations_without_data` list, both in station processing order. -/
def buildSeries :
    List (String × List ObservationRecord) →
      List (String × List ObservationRecord) × List String
  | [] => ([], [])
  | (station, recs) :: rest =>
    let res := buildSeries rest
    if !recs.isEmpty then
      if !recs.all isnanLevel then
        ((station, trimTrailing recs) :: res.1, res.2)
      else
        (res.1, station :: res.2)
    else
      (res.1, station :: res.2)

/-- Association-list lookup, as Python dictionary access
`hydrometric_data[station]` over the assembled pairs. -/
def lookupId {α : Type} (st : String) : List (String × α) → Option α
  | [] => none
  | (k, v) :: rest => if k = st then some v else lookupId st rest

/-- The `num_months` variable referenced in the final error message of the
cell: it is defined nowhere in the notebook, so looking it up fails. -/
def numMonths : Option Nat :=
  none

/-- Building the message of the final `raise ValueError`: the f-string
interpolates `num_months`, so when that name is undefined the construction
itself raises `NameError` before any `ValueError` can be raised. -/
def emptyResultMessage : Except PyError String :=
  match numMonths with
  | none => .error (.nameError "num_months")
  | some n =>
    .ok ("No water level data is available for this " ++ toString n ++
      " months period for the selected hydrometric stations.")

/-- The loop `for station in stations_without_data: stations.remove(station)`:
remove each excluded station (first occurrence) from the station list. -/
def removeExcluded (stations excluded : List String) : List String :=
  excluded.foldl (fun acc s => acc.erase s) stations

/-- The whole assembly cell: build the per-station frames, drop the excluded
stations from the station list, and fail when no station remains — the
failure path evaluates the f-string first, so it reproduces whatever error
message construction yields. -/
def hydrometricData (input : List (String × List ObservationRecord)) :
    Except PyError (List (String × List ObservationRecord) × List String) :=
  let res := buildSeries input
  let stations := removeExcluded (input.map Prod.fst) res.2
  if stations.isEmpty then
    match emptyResultMessage with
    | .error e => .error e
    | .ok msg => .error (.valueError msg)
  else
    .ok res

/-! ### Lemmas about the assembler -/

theorem buildSeries_cons (station : String) (recs : List ObservationRecord)
    (rest : List (String × List ObservationRecord)) :
    buildSeries ((station, recs) :: rest) =
      if usable recs then
        ((station, trimTrailing recs) :: (buildSeries rest).1, (buildSeries rest).2)
      else
        ((buildSeries rest).1, station :: (buildSeries rest).2) := by
  rcases Bool.eq_false_or_eq_true recs.isEmpty with h1 | h1 <;>
    rcases Bool.eq_false_or_eq_true (recs.all isnanLevel) with h2 | h2 <;>
      simp [buildSeries, usable, h1, h2]

theorem usable_iff (recs : List ObservationRecord) :
    usable recs = true ↔ recs ≠ [] ∧ ∃ r ∈ recs, isnanLevel r = false := by
  simp only [usable, Bool.and_eq_true, Bool.not_eq_true, List.isEmpty_eq_false]
  constructor
  · rintro ⟨h1, h2⟩
    refine ⟨by simpa using h1, ?_⟩
    by_contra hc
    push_neg at hc
    have : recs.all isnanLevel = true := by
      rw [List.all_eq_true]
      intro r hr
      cases hv : isnanLevel r
      · exact absurd hv (hc r hr)
      · rfl
    simp [this] at h2
  · rintro ⟨h1, r, hr, hv⟩
    refine ⟨by simpa using h1, ?_⟩
    cases hall : recs.all isnanLevel
    · rfl
    · rw [List.all_eq_true] at hall
      rw [hall r hr] at hv
      exact absurd hv (by simp)

theorem lookupId_isSome_iff {α : Type} (st : String) (l : List (String × α)) :
    (lookupId st l).isSome = true ↔ st ∈ l.map Prod.fst := by
  induction l with
  | nil => simp [lookupId]
  | cons p rest ih =>
    obtain ⟨k, v⟩ := p
    by_cases h : k = st
    · subst h
      simp [lookupId]
    · simp only [lookupId, if_neg h, List.map_cons, List.mem_cons, ih]
      constructor
      · exact fun hm => Or.inr hm
      · rintro (rfl | hm)
        · exact absurd rfl h
        · exact hm

theorem lookupId_eq_none_of_not_mem {α : Type} {st : String}
    {l : List (String × α)} (h : st ∉ l.map Prod.fst) : lookupId st l = none := by
  cases hl : lookupId st l with
  | none => rfl
  | some v =>
    exact absurd ((lookupId_isSome_iff st l).mp (by simp [hl])) h

theorem lookupId_mem_of_eq_some {α : Type} {st : String} {v : α}
    {l : List (String × α)} (h : lookupId st l = some v) : (st, v) ∈ l := by
  induction l with
  | nil => simp [lookupId] at h
  | cons p rest ih =>
    obtain ⟨k, w⟩ := p
    by_cases hk : k = st
    · subst hk
      have hv : w = v := by simpa [lookupId] using h
      subst hv
      exact List.mem_cons_self _ _
    · simp only [lookupId, if_neg hk] at h
      exact List.mem_cons_of_mem _ (ih h)

theorem lookupId_eq_some_of_mem {α : Type} {st : String} {v : α}
    {l : List (String × α)} (hnd : (l.map Prod.fst).Nodup)
    (h : (st, v) ∈ l) : lookupId st l = some v := by
  induction l with
  | nil => simp at h
  | cons p rest ih =>
    obtain ⟨k, w⟩ := p
    rw [List.map_cons, List.nodup_cons] at hnd
    rcases List.mem_cons.mp h with heq | hm
    · injection heq with h1 h2
      subst h1
      subst h2
      simp [lookupId]
    · by_cases hk : k = st
      · subst hk
        exact absurd (List.mem_map_of_mem Prod.fst hm) hnd.1
      · simp only [lookupId, if_neg hk]
        exact ih hnd.2 hm

theorem buildSeries_fst_subset (input : List (String × List ObservationRecord))
    (st : String) (h : st ∈ (buildSeries input).1.map Prod.fst) :
    st ∈ input.map Prod.fst := by
  induction input with
  | nil => simp [buildSeries] at h
  | cons p rest ih =>
    obtain ⟨k, recs⟩ := p
    rw [buildSeries_cons] at h
    by_cases hu : usable recs = true
    · rw [if_pos hu] at h
      simp only [List.map_cons, List.mem_cons] at h
      rcases h with rfl | h
      · exact List.mem_cons_self _ _
      · exact List.mem_cons_of_mem _ (ih h)
    · rw [if_neg hu] at h
      exact List.mem_cons_of_mem _ (ih h)

theorem buildSeries_snd_subset (input : List (String × List ObservationRecord))
    (st : String) (h : st ∈ (buildSeries input).2) :
    st ∈ input.map Prod.fst := by
  induction input with
  | nil => simp [buildSeries] at h
  | cons p rest ih =>
    obtain ⟨k, recs⟩ := p
    rw [buildSeries_cons] at h
    by_cases hu : usable recs = true
    · rw [if_pos hu] at h
      exact List.mem_cons_of_mem _ (ih h)
    · rw [if_neg hu] at h
      rcases List.mem_cons.mp h with rfl | h
      · exact List.mem_cons_self _ _
      · exact List.mem_cons_of_mem _ (ih h)

theorem buildSeries_lookup (input : List (String × List ObservationRecord))
    (hnd : (input.map Prod.fst).Nodup) (st : String) :
    lookupId st (buildSeries input).1 =
      (lookupId st input).bind
        (fun recs => if usable recs then some (trimTrailing recs) else none) := by
  induction input with
  | nil => simp [buildSeries, lookupId]
  | cons p rest ih =>
    obtain ⟨k, recs⟩ := p
    rw [List.map_cons, List.nodup_cons] at hnd
    rw [buildSeries_cons]
    by_cases hu : usable recs = true
    · rw [if_pos hu]
      by_cases hk : k = st
      · subst hk
        simp [lookupId, hu]
      · simp only [lookupId, if_neg hk]
        exact ih hnd.2
    · rw [if_neg hu]
      by_cases hk : k = st
      · subst hk
        have hnone : lookupId k (buildSeries rest).1 = none :=
          lookupId_eq_none_of_not_mem
            (fun hmem => hnd.1 (buildSeries_fst_subset rest k hmem))
        simp [lookupId, hnone, hu]
      · simp only [lookupId, if_neg hk]
        exact ih hnd.2

theorem buildSeries_excluded_iff (input : List (String × List ObservationRecord))
    (hnd : (input.map Prod.fst).Nodup) (st : String) :
    st ∈ (buildSeries input).2 ↔
      ∃ recs, lookupId st input = some recs ∧ usable recs = false := by
  induction input with
  | nil => simp [buildSeries, lookupId]
  | cons p rest ih =>
    obtain ⟨k, recs⟩ := p
    rw [List.map_cons, List.nodup_cons] at hnd
    rw [buildSeries_cons]
    by_cases hu : usable recs = true
    · rw [if_pos hu]
      by_cases hk : k = st
      · subst hk
        constructor
        · intro h
          exact absurd (buildSeries_snd_subset rest k h) hnd.1
        · rintro ⟨recs2, hl, hu2⟩
          have : recs = recs2 := by simpa [lookupId] using hl
          rw [← this, hu] at hu2
          exact absurd hu2 (by simp)
      · simp only [lookupId, if_neg hk]
        exact ih hnd.2
    · rw [if_neg hu]
      by_cases hk : k = st
      · subst hk
        constructor
        · intro _
          exact ⟨recs, by simp [lookupId], by simpa using hu⟩
        · intro _
          exact List.mem_cons_self _ _
      · simp only [List.mem_cons, lookupId, if_neg hk]
        constructor
        · rintro (rfl | h)
          · exact absurd rfl hk
          · exact (ih hnd.2).mp h
        · intro h
          exact Or.inr ((ih hnd.2).mpr h)

theorem buildSeries_mapping_mem (input : List (String × List ObservationRecord))
    (p : String × List ObservationRecord) (h : p ∈ (buildSeries input).1) :
    ∃ recs, usable recs = true ∧ p.2 = trimTrailing recs := by
  induction input with
  | nil => simp [buildSeries] at h
  | cons q rest ih =>
    obtain ⟨k, recs⟩ := q
    rw [buildSeries_cons] at h
    by_cases hu : usable recs = true
    · rw [if_pos hu] at h
      rcases List.mem_cons.mp h with rfl | h
      · exact ⟨recs, hu, rfl⟩
      · exact ih h
    · rw [if_neg hu] at h
      exact ih h

theorem lookupId_perm {α : Type} {l₁ l₂ : List (String × α)} (hperm : l₁.Perm l₂)
    (hnd : (l₁.map Prod.fst).Nodup) (st : String) :
    lookupId st l₁ = lookupId st l₂ := by
  have hnd₂ : (l₂.map Prod.fst).Nodup := ((hperm.map Prod.fst).nodup_iff).mp hnd
  cases h : lookupId st l₁ with
  | none =>
    have h₁ : st ∉ l₁.map Prod.fst := by
      intro hm
      have := (lookupId_isSome_iff st l₁).mpr hm
      simp [h] at this
    have h₂ : st ∉ l₂.map Prod.fst :=
      fun hm => h₁ ((hperm.map Prod.fst).mem_iff.mpr hm)
    exact (lookupId_eq_none_of_not_mem h₂).symm
  | some v =>
    exact (lookupId_eq_some_of_mem hnd₂
      (hperm.mem_iff.mp (lookupId_mem_of_eq_some h))).symm

theorem exists_not_nan_of_all_false (l : List ObservationRecord)
    (h : l.all isnanLevel = false) : ∃ r ∈ l, isnanLevel r = false := by
  by_contra hc
  push_neg at hc
  have hall : l.all isnanLevel = true := by
    rw [List.all_eq_true]
    intro r hr
    cases hv : isnanLevel r
    · exact absurd hv (hc r hr)
    · rfl
  rw [hall] at h
  exact absurd h (by simp)

theorem trimTrailing_good (recs : List ObservationRecord)
    (hu : usable recs = true) :
    trimTrailing recs ≠ [] ∧
      (∃ r, (trimTrailing recs).getLast? = some r ∧ isnanLevel r = false) ∧
      ∃ r ∈ trimTrailing recs, isnanLevel r = false := by
  obtain ⟨-, hex⟩ := (usable_iff recs).mp hu
  have hne := trimTrailing_ne_nil recs hex
  rcases dropWhileNaNRev_head recs.reverse with h | ⟨r, rs, h, hv⟩
  · exact absurd (by simp [trimTrailing, h]) hne
  · refine ⟨hne, ⟨r, ?_, hv⟩, ⟨r, ?_, hv⟩⟩
    · simp [trimTrailing, h, List.getLast?_reverse]
    · simp only [trimTrailing, h, List.mem_reverse]
      exact List.mem_cons_self _ _

/-! ## Claim theorems -/

/-- Claim C1 (Proximity Selector membership): for every centre, every
`radius_km > 0` and every candidate collection, a station identifier is in
the selection loop's result iff some candidate carrying that identifier has
its reprojected point within the circular region of radius
`radius_km * 1000` metres around the reprojected centre — a boundary-inclusive
circle test (`distSq ≤ radius²`), not a bounding-box test; consequently every
identifier in the result comes from a candidate within that distance and no
identifier beyond it is ever included. -/
theorem proximity_selector_membership (transform : ℚ × ℚ → ℚ × ℚ)
    (center : ℚ × ℚ) (bufferKm : ℚ) (candidates : List Feature) (st : String)
    (_hr : 0 < bufferKm) :
    (st ∈ stationsWithin transform center bufferKm candidates ↔
      ∃ f ∈ candidates, f.stationNumber = st ∧
        distSq (transform f.geom) (transform center) ≤ (bufferKm * 1000) ^ 2) ∧
    (st ∈ stationsWithin transform center bufferKm candidates →
      ∃ f ∈ candidates, f.stationNumber = st ∧
        distSq (transform f.geom) (transform center) ≤ (bufferKm * 1000) ^ 2) := by
  have h := stationsWithin_mem transform center bufferKm candidates st
  simp only [intersectsBuffer] at h
  exact ⟨h, h.mp⟩

/-- Witness for C1: a single candidate exactly on the circle boundary
(1000 m from the centre under the identity transform, radius 1 km) is
selected — boundary-inclusive. -/
theorem proximity_selector_membership_witness :
    (0 : ℚ) < 1 ∧
      (("A" ∈ stationsWithin id (0, 0) 1
            [{ stationNumber := "A", geom := (1000, 0) }] ↔
          ∃ f ∈ [({ stationNumber := "A", geom := (1000, 0) } : Feature)],
            f.stationNumber = "A" ∧
              distSq (id f.geom) (id (0, 0)) ≤ ((1 : ℚ) * 1000) ^ 2) ∧
        ("A" ∈ stationsWithin id (0, 0) 1
            [{ stationNumber := "A", geom := (1000, 0) }] →
          ∃ f ∈ [({ stationNumber := "A", geom := (1000, 0) } : Feature)],
            f.stationNumber = "A" ∧
              distSq (id f.geom) (id (0, 0)) ≤ ((1 : ℚ) * 1000) ^ 2)) :=
  ⟨by norm_num,
    proximity_selector_membership id (0, 0) 1
      [{ stationNumber := "A", geom := (1000, 0) }] "A" (by norm_num)⟩

/-- Claim C2 (trailing trim): the trim step drops exactly a trailing run of
missing-value records — the result is a prefix of the input (interior gaps
preserved unmodified), what is dropped is all-missing, and the result either
is empty or ends in a present value; the spec's Scenario C
`[(d1, 1.2), (d2, missing), (d3, missing)] ↦ [(d1, 1.2)]` holds. -/
theorem assembler_trailing_trim (l : List ObservationRecord) :
    (∃ suf, l = trimTrailing l ++ suf ∧ ∀ r ∈ suf, isnanLevel r = true) ∧
      (trimTrailing l = [] ∨
        ∃ r, (trimTrailing l).getLast? = some r ∧ isnanLevel r = false) ∧
      trimTrailing [⟨1, some (6 / 5 : ℚ)⟩, ⟨2, none⟩, ⟨3, none⟩] =
        [⟨1, some (6 / 5 : ℚ)⟩] := by
  refine ⟨?_, trimTrailing_getLast l, rfl⟩
  obtain ⟨suf, h1, h2⟩ := trimTrailing_append l
  exact ⟨suf, h1, h2⟩

/-- Claim C3 (exclusion partition): with distinct station identifiers, every
identifier of the input is in the `hydrometric_data` mapping or in
`stations_without_data` but never both; an identifier whose records are all
missing (or absent: `all` of an empty record list is `true`) is excluded and
not mapped; and no empty series appears in the mapping. -/
theorem exclusion_partition (input : List (String × List ObservationRecord))
    (hnd : (input.map Prod.fst).Nodup) (st : String)
    (hmem : st ∈ input.map Prod.fst) :
    (st ∈ (buildSeries input).1.map Prod.fst ↔ st ∉ (buildSeries input).2) ∧
      (∀ recs, lookupId st input = some recs → recs.all isnanLevel = true →
        st ∈ (buildSeries input).2 ∧ st ∉ (buildSeries input).1.map Prod.fst) ∧
      ∀ p ∈ (buildSeries input).1, p.2 ≠ [] := by
  obtain ⟨recs0, h0⟩ : ∃ r, lookupId st input = some r :=
    Option.isSome_iff_exists.mp ((lookupId_isSome_iff st input).mpr hmem)
  have hmap : st ∈ (buildSeries input).1.map Prod.fst ↔ usable recs0 = true := by
    rw [← lookupId_isSome_iff, buildSeries_lookup input hnd st, h0]
    cases hu : usable recs0 <;> simp [hu]
  have hexc : st ∈ (buildSeries input).2 ↔ usable recs0 = false := by
    rw [buildSeries_excluded_iff input hnd st]
    constructor
    · rintro ⟨recs, h1, h2⟩
      rw [h0] at h1
      injection h1 with h1
      rw [← h1] at h2
      exact h2
    · intro h
      exact ⟨recs0, h0, h⟩
  refine ⟨?_, ?_, ?_⟩
  · rw [hmap, hexc]
    cases usable recs0 <;> simp
  · intro recs h1 hall
    rw [h0] at h1
    injection h1 with h1
    have hu : usable recs0 = false := by
      rw [h1]
      simp [usable, hall]
    exact ⟨hexc.mpr hu, fun hm => by rw [hmap.mp hm] at hu; cases hu⟩
  · intro p hp
    obtain ⟨recs, hu, hpe⟩ := buildSeries_mapping_mem input p hp
    rw [hpe]
    exact (trimTrailing_good recs hu).1

/-- Witness for C3: a two-station input, one usable and one all-missing,
with distinct identifiers. -/
theorem exclusion_partition_witness :
    (([("A", [⟨0, some (1 : ℚ)⟩]), ("B", [⟨0, none⟩])].map
        (Prod.fst (α := String) (β := List ObservationRecord))).Nodup) ∧
      ("A" ∈ [("A", [⟨0, some (1 : ℚ)⟩]),
          ("B", [(⟨0, none⟩ : ObservationRecord)])].map Prod.fst) ∧
      ((("A" ∈ (buildSeries [("A", [⟨0, some (1 : ℚ)⟩]),
            ("B", [⟨0, none⟩])]).1.map Prod.fst) ↔
          "A" ∉ (buildSeries [("A", [⟨0, some (1 : ℚ)⟩]),
            ("B", [⟨0, none⟩])]).2) ∧
        (∀ recs, lookupId "A" [("A", [⟨0, some (1 : ℚ)⟩]),
              ("B", [⟨0, none⟩])] = some recs →
            recs.all isnanLevel = true →
            "A" ∈ (buildSeries [("A", [⟨0, some (1 : ℚ)⟩]),
              ("B", [⟨0, none⟩])]).2 ∧
            "A" ∉ (buildSeries [("A", [⟨0, some (1 : ℚ)⟩]),
              ("B", [⟨0, none⟩])]).1.map Prod.fst) ∧
        ∀ p ∈ (buildSeries [("A", [⟨0, some (1 : ℚ)⟩]),
            ("B", [⟨0, none⟩])]).1, p.2 ≠ []) :=
  ⟨by decide, by decide,
    exclusion_partition [("A", [⟨0, some (1 : ℚ)⟩]), ("B", [⟨0, none⟩])]
      (by decide) "A" (by decide)⟩

/-- Claim C4 (code bug, assembler empty-result error): when every station ends
up excluded, the code reaches its final `raise ValueError(...)`, but the
message f-string interpolates `num_months`, a name defined nowhere in the
notebook, so the run fails with an uncontrolled `NameError` instead of the
intended descriptive user-facing `ValueError`. -/
theorem assembler_empty_result_name_error :
    hydrometricData [("08GA010", [⟨0, none⟩])] =
        .error (.nameError "num_months") ∧
      isUserFacingError (hydrometricData [("08GA010", [⟨0, none⟩])]) = false :=
  ⟨rfl, rfl⟩

/-- Claim C5 (selector raises iff empty result): provided the spatial
reference identification succeeds, the selector fails with the
"no hydrometric stations were found" `ValueError` exactly when the candidate
collection is empty, fails with the "none within radius" `ValueError` exactly
when the circle test selects zero features, and otherwise returns the
non-empty selected identifier list without raising. -/
theorem selector_raises_iff_empty (authorityCode : Option Int)
    (transformOf : Int → ℚ × ℚ → ℚ × ℚ) (center : ℚ × ℚ) (bufferKm : ℚ)
    (candidates : List Feature) (epsg : Int)
    (hsrs : pyInt authorityCode = .ok epsg) :
    (candidates = [] →
        selector authorityCode transformOf center bufferKm candidates =
          .error (.valueError noStationsFoundMsg)) ∧
      (candidates ≠ [] →
        stationsWithin (transformOf epsg) center bufferKm candidates = [] →
        selector authorityCode transformOf center bufferKm candidates =
          .error (.valueError (noneWithinMsg bufferKm))) ∧
      (candidates ≠ [] →
        stationsWithin (transformOf epsg) center bufferKm candidates ≠ [] →
        selector authorityCode transformOf center bufferKm candidates =
          .ok (stationsWithin (transformOf epsg) center bufferKm candidates) ∧
        stationsWithin (transformOf epsg) center bufferKm candidates ≠ []) := by
  refine ⟨?_, ?_, ?_⟩
  · intro hc
    subst hc
    simp [selector]
  · intro hc hs
    have hce : candidates.isEmpty = false := by
      simpa [List.isEmpty_iff] using hc
    simp [selector, hce, hsrs, hs]
  · intro hc hs
    have hce : candidates.isEmpty = false := by
      simpa [List.isEmpty_iff] using hc
    have hse : (stationsWithin (transformOf epsg) center bufferKm
        candidates).isEmpty = false := by
      simpa [List.isEmpty_iff] using hs
    exact ⟨by simp [selector, hce, hsrs, hse], hs⟩

/-- Witness for C5: a valid authority code 4326 and one candidate at the
centre; the selector returns that candidate without raising. -/
theorem selector_raises_iff_empty_witness :
    pyInt (some 4326) = .ok 4326 ∧
      (([({ stationNumber := "A", geom := ((0 : ℚ), (0 : ℚ)) } : Feature)] = [] →
          selector (some 4326) (fun _ => id) (0, 0) 1
              [{ stationNumber := "A", geom := (0, 0) }] =
            .error (.valueError noStationsFoundMsg)) ∧
        ([({ stationNumber := "A", geom := ((0 : ℚ), (0 : ℚ)) } : Feature)] ≠ [] →
          stationsWithin ((fun _ => id : Int → ℚ × ℚ → ℚ × ℚ) 4326) (0, 0) 1
              [{ stationNumber := "A", geom := (0, 0) }] = [] →
          selector (some 4326) (fun _ => id) (0, 0) 1
              [{ stationNumber := "A", geom := (0, 0) }] =
            .error (.valueError (noneWithinMsg 1))) ∧
        ([({ stationNumber := "A", geom := ((0 : ℚ), (0 : ℚ)) } : Feature)] ≠ [] →
          stationsWithin ((fun _ => id : Int → ℚ × ℚ → ℚ × ℚ) 4326) (0, 0) 1
              [{ stationNumber := "A", geom := (0, 0) }] ≠ [] →
          selector (some 4326) (fun _ => id) (0, 0) 1
              [{ stationNumber := "A", geom := (0, 0) }] =
            .ok (stationsWithin ((fun _ => id : Int → ℚ × ℚ → ℚ × ℚ) 4326)
              (0, 0) 1 [{ stationNumber := "A", geom := (0, 0) }]) ∧
          stationsWithin ((fun _ => id : Int → ℚ × ℚ → ℚ × ℚ) 4326) (0, 0) 1
              [{ stationNumber := "A", geom := (0, 0) }] ≠ [])) :=
  ⟨rfl,
    selector_raises_iff_empty (some 4326) (fun _ => id) (0, 0) 1
      [{ stationNumber := "A", geom := (0, 0) }] 4326 rfl⟩

/-- Claim C6 (EntitySeries invariant): with distinct station identifiers, any
series stored in the mapping is non-empty, contains a non-missing value, and
ends in a present value; moreover a stored series can only come from source
records that were not all missing. -/
theorem entity_series_invariant (input : List (String × List ObservationRecord))
    (hnd : (input.map Prod.fst).Nodup) (st : String)
    (s : List ObservationRecord)
    (hs : lookupId st (buildSeries input).1 = some s) :
    s ≠ [] ∧ (∃ r ∈ s, isnanLevel r = false) ∧
      (∃ r, s.getLast? = some r ∧ isnanLevel r = false) ∧
      ∀ recs, lookupId st input = some recs → recs.all isnanLevel = false := by
  rw [buildSeries_lookup input hnd st] at hs
  cases h0 : lookupId st input with
  | none =>
    rw [h0] at hs
    simp at hs
  | some recs =>
    rw [h0] at hs
    by_cases hu : usable recs = true
    · rw [show (some recs).bind (fun recs =>
          if usable recs then some (trimTrailing recs) else none) =
            if usable recs then some (trimTrailing recs) else none from rfl,
        if_pos hu] at hs
      injection hs with hs
      subst hs
      obtain ⟨h1, h2, h3⟩ := trimTrailing_good recs hu
      refine ⟨h1, h3, h2, ?_⟩
      intro recs2 h4
      injection h4 with h4
      subst h4
      rcases Bool.eq_false_or_eq_true (recs.all isnanLevel) with ha | ha
      · rw [show usable recs = (!recs.isEmpty && !recs.all isnanLevel) from rfl,
          ha] at hu
        simp at hu
      · exact ha
    · rw [show (some recs).bind (fun recs =>
          if usable recs then some (trimTrailing recs) else none) =
            if usable recs then some (trimTrailing recs) else none from rfl,
        if_neg hu] at hs
      exact absurd hs (by simp)

/-- Witness for C6: the usable station of a two-station input. -/
theorem entity_series_invariant_witness :
    (([("A", [⟨0, some (1 : ℚ)⟩]), ("B", [⟨0, none⟩])].map
        (Prod.fst (α := String) (β := List ObservationRecord))).Nodup) ∧
      (lookupId "A" (buildSeries [("A", [⟨0, some (1 : ℚ)⟩]),
          ("B", [⟨0, none⟩])]).1 = some [⟨0, some (1 : ℚ)⟩]) ∧
      ([(⟨0, some (1 : ℚ)⟩ : ObservationRecord)] ≠ [] ∧
        (∃ r ∈ [(⟨0, some (1 : ℚ)⟩ : ObservationRecord)], isnanLevel r = false) ∧
        (∃ r, ([(⟨0, some (1 : ℚ)⟩ : ObservationRecord)]).getLast? = some r ∧
          isnanLevel r = false) ∧
        ∀ recs, lookupId "A" [("A", [⟨0, some (1 : ℚ)⟩]),
            ("B", [⟨0, none⟩])] = some recs → recs.all isnanLevel = false) :=
  ⟨by decide, rfl,
    entity_series_invariant [("A", [⟨0, some (1 : ℚ)⟩]), ("B", [⟨0, none⟩])]
      (by decide) "A" [⟨0, some (1 : ℚ)⟩] rfl⟩

/-- Claim C7 counterexample: with no SRS authority code and a nonempty
candidate collection, the selector's failure is not one of the notebook's
user-facing `ValueError` raises, refuting the claim that a missing spatial
reference is reported as a descriptive configuration error. -/
theorem srs_missing_counterexample :
    isUserFacingError
        (selector none (fun _ => id) (0, 0) 1
          [{ stationNumber := "A", geom := (0, 0) }]) = false :=
  rfl

/-- Claim C7 amended: for every nonempty candidate collection whose spatial
reference has no authority code (`GetAuthorityCode` returned `None`), the
selector fails with the uncontrolled `TypeError` raised by `int(None)` — not
with a user-facing `ValueError`. -/
theorem srs_missing_type_error (transformOf : Int → ℚ × ℚ → ℚ × ℚ)
    (center : ℚ × ℚ) (bufferKm : ℚ) (candidates : List Feature)
    (hc : candidates ≠ []) :
    selector none transformOf center bufferKm candidates =
        .error (.typeError
          "int() argument must be a string, a bytes-like object or a number, not NoneType") ∧
      isUserFacingError (selector none transformOf center bufferKm candidates) =
        false := by
  have hce : candidates.isEmpty = false := by
    simpa [List.isEmpty_iff] using hc
  constructor
  · simp [selector, hce, pyInt]
  · simp [selector, hce, pyInt, isUserFacingError]

/-- Witness for C7's amended theorem at a one-candidate collection. -/
theorem srs_missing_type_error_witness :
    ([({ stationNumber := "A", geom := ((0 : ℚ), (0 : ℚ)) } : Feature)] ≠ []) ∧
      (selector none (fun _ => id) (0, 0) 1
          [{ stationNumber := "A", geom := (0, 0) }] =
        .error (.typeError
          "int() argument must be a string, a bytes-like object or a number, not NoneType") ∧
      isUserFacingError (selector none (fun _ => id) (0, 0) 1
          [{ stationNumber := "A", geom := (0, 0) }]) = false) :=
  ⟨List.cons_ne_nil _ _,
    srs_missing_type_error (fun _ => id) (0, 0) 1
      [{ stationNumber := "A", geom := (0, 0) }] (List.cons_ne_nil _ _)⟩

/-- Claim C8 (trailing-trim idempotence): applying the trailing-trim step
twice yields the same result as applying it once. -/
theorem trailing_trim_idempotent (l : List ObservationRecord) :
    trimTrailing (trimTrailing l) = trimTrailing l :=
  trimTrailing_idem l

/-- Claim C9 (assembler determinism): the assembler is a pure function, and
its output does not depend on the order in which the entities are processed:
for any reordering (permutation) of the per-station input with distinct
identifiers, each station's mapping entry and exclusion status are
identical. -/
theorem assembler_determinism (input₁ input₂ : List (String × List ObservationRecord))
    (hperm : input₁.Perm input₂) (hnd : (input₁.map Prod.fst).Nodup)
    (st : String) :
    lookupId st (buildSeries input₁).1 = lookupId st (buildSeries input₂).1 ∧
      (st ∈ (buildSeries input₁).2 ↔ st ∈ (buildSeries input₂).2) := by
  have hnd₂ : (input₂.map Prod.fst).Nodup :=
    ((hperm.map Prod.fst).nodup_iff).mp hnd
  have hl := lookupId_perm hperm hnd st
  constructor
  · rw [buildSeries_lookup input₁ hnd st, buildSeries_lookup input₂ hnd₂ st, hl]
  · rw [buildSeries_excluded_iff input₁ hnd st,
      buildSeries_excluded_iff input₂ hnd₂ st, hl]

/-- Witness for C9: swapping the two stations of a two-station input leaves
each station's result unchanged. -/
theorem assembler_determinism_witness :
    ([("A", [⟨0, some (1 : ℚ)⟩]), ("B", [(⟨0, none⟩ : ObservationRecord)])].Perm
        [("B", [⟨0, none⟩]), ("A", [⟨0, some (1 : ℚ)⟩])]) ∧
      (([("A", [⟨0, some (1 : ℚ)⟩]), ("B", [⟨0, none⟩])].map
          (Prod.fst (α := String) (β := List ObservationRecord))).Nodup) ∧
      (lookupId "A" (buildSeries [("A", [⟨0, some (1 : ℚ)⟩]),
            ("B", [⟨0, none⟩])]).1 =
          lookupId "A" (buildSeries [("B", [⟨0, none⟩]),
            ("A", [⟨0, some (1 : ℚ)⟩])]).1 ∧
        ("A" ∈ (buildSeries [("A", [⟨0, some (1 : ℚ)⟩]),
            ("B", [⟨0, none⟩])]).2 ↔
          "A" ∈ (buildSeries [("B", [⟨0, none⟩]),
            ("A", [⟨0, some (1 : ℚ)⟩])]).2)) :=
  ⟨List.Perm.swap _ _ _, by decide,
    assembler_determinism [("A", [⟨0, some (1 : ℚ)⟩]), ("B", [⟨0, none⟩])]
      [("B", [⟨0, none⟩]), ("A", [⟨0, some (1 : ℚ)⟩])]
      (List.Perm.swap _ _ _) (by decide) "A"⟩

/-- Claim C10 (trim-loop safety and termination): whenever the guarding
`isnull().all()` check fails (not every value missing — which also rules out
an empty frame, since `all` of an empty sequence is `true`), the step-by-step
trim loop terminates within `length + 1` iterations without ever reading the
last element of an empty frame, and the sequence it leaves is non-empty. -/
theorem trim_loop_safe (l : List ObservationRecord)
    (h : l.all isnanLevel = false) :
    trimLoop (l.length + 1) l = some (trimTrailing l) ∧ trimTrailing l ≠ [] := by
  have hex := exists_not_nan_of_all_false l h
  exact ⟨trimLoop_eq l.length l (Nat.le_refl _) hex, trimTrailing_ne_nil l hex⟩

/-- Witness for C10: a two-record frame ending in a missing value. -/
theorem trim_loop_safe_witness :
    (([⟨1, some (1 : ℚ)⟩, ⟨2, none⟩] : List ObservationRecord).all isnanLevel
        = false) ∧
      (trimLoop (([⟨1, some (1 : ℚ)⟩, ⟨2, none⟩] :
            List ObservationRecord).length + 1)
          [⟨1, some (1 : ℚ)⟩, ⟨2, none⟩] =
        some (trimTrailing [⟨1, some (1 : ℚ)⟩, ⟨2, none⟩]) ∧
      trimTrailing [(⟨1, some (1 : ℚ)⟩ : ObservationRecord), ⟨2, none⟩] ≠ []) :=
  ⟨by decide, trim_loop_safe [⟨1, some (1 : ℚ)⟩, ⟨2, none⟩] (by decide)⟩

end Oafeat
